import Mathlib

/-!
Verification development for a Flask user registration / login system
(app.py): password, username and email validators, the credential store
(users table, login_attempts table), the lockout policy
(is_account_locked, increment_failed_login, reset_failed_login) and the
two orchestration operations (register, login).

The embedding is shallow: the SQLite users table becomes a list of
account records, updates become maps over that list, timestamps become
naturals (measured in minutes, matching the 30-minute lockout constant),
and the password-hashing collaborator (werkzeug) is an explicit function
parameter `verify` / `hashF`, as the code treats hashing as an external
collaborator.  Python regex character classes are modelled over their
ASCII semantics (the patterns in app.py only use literal ASCII ranges;
the sole Unicode-sensitive class, the bare digit class in
validate_password, is modelled as the ASCII digits 0-9).
-/

namespace FnApp

/-- Strings are modelled as lists of characters (Python `str`,
codepoint sequences). -/
abbrev Str := List Char

/-- Membership of the ASCII range A-Z, the regex class `[A-Z]`. -/
def isUpperAZ (c : Char) : Bool := decide (65 ≤ c.toNat ∧ c.toNat ≤ 90)

/-- Membership of the ASCII range a-z, the regex class `[a-z]`. -/
def isLowerAZ (c : Char) : Bool := decide (97 ≤ c.toNat ∧ c.toNat ≤ 122)

/-- Membership of the ASCII range 0-9, the regex digit class of
`validate_password` (modelled over ASCII). -/
def isDigit09 (c : Char) : Bool := decide (48 ≤ c.toNat ∧ c.toNat ≤ 57)

/-- The regex word class `[a-zA-Z0-9_]` of `validate_username`. -/
def isWordChar (c : Char) : Bool :=
  isUpperAZ c || isLowerAZ c || isDigit09 c || c == '_'

/-- The special-character set of `validate_password`:
`! @ # $ % ^ & * ( ) , . ? " : LBRACE RBRACE | < >` (the two braces are
written via their code points 123 and 125). -/
def specialChars : Str :=
  ['!', '@', '#', '$', '%', '^', '&', '*', '(', ')', ',', '.', '?',
   '\"', ':', Char.ofNat 123, Char.ofNat 125, '|', '<', '>']

/-- Characters Python `str.strip()` removes (ASCII whitespace:
space, tab, newline, carriage return, vertical tab, form feed). -/
def isPySpace (c : Char) : Bool :=
  c == ' ' || c == '\t' || c == '\n' || c == '\r' ||
  c == Char.ofNat 11 || c == Char.ofNat 12

/-- Python `str.strip()`: drop whitespace from both ends. -/
def pyStrip (s : Str) : Str :=
  ((s.dropWhile isPySpace).reverse.dropWhile isPySpace).reverse

/-- `validate_password` from app.py: five checks in order, early return
with the message of the first failing check. -/
def validate_password (password : Str) : Bool × String :=
  if password.length < 8 then
    (false, "Password must be at least 8 characters long")
  else if !(password.any isUpperAZ) then
    (false, "Password must contain at least one uppercase letter")
  else if !(password.any isLowerAZ) then
    (false, "Password must contain at least one lowercase letter")
  else if !(password.any isDigit09) then
    (false, "Password must contain at least one digit")
  else if !(password.any (fun c => specialChars.contains c)) then
    (false, "Password must contain at least one special character")
  else
    (true, "Password is valid")

/-- Python `re.match` of an end-anchored pattern: without re.MULTILINE
the anchor at the end of the pattern matches at the end of the string OR
just before a single newline at the end of the string.  So the pattern
of `validate_username` also accepts a word string followed by one final
newline.  This helper strips that one final newline, exactly mirroring
the anchor semantics. -/
def stripFinalNewline (s : Str) : Str :=
  match s.getLast? with
  | some c => if c = '\n' then s.dropLast else s
  | none => s

/-- The regex of `validate_username` (word characters, one or more,
anchored at both ends, with the Python trailing-newline anchor
semantics). -/
def usernamePatternMatches (s : Str) : Bool :=
  let body := stripFinalNewline s
  !body.isEmpty && body.all isWordChar

/-- `validate_username` from app.py: length check first, then the
regex (whole-string word characters), each with its own message. -/
def validate_username (username : Str) : Bool × String :=
  if username.length < 3 || 20 < username.length then
    (false, "Username must be between 3 and 20 characters")
  else if !(usernamePatternMatches username) then
    (false, "Username can only contain letters, numbers, and underscores")
  else
    (true, "Username is valid")

/-- The regex local-part class `[a-zA-Z0-9._%+-]` of `validate_email`. -/
def isLocalChar (c : Char) : Bool :=
  isUpperAZ c || isLowerAZ c || isDigit09 c ||
  c == '.' || c == '_' || c == '%' || c == '+' || c == '-'

/-- The regex domain class `[a-zA-Z0-9.-]` of `validate_email`. -/
def isDomainChar (c : Char) : Bool :=
  isUpperAZ c || isLowerAZ c || isDigit09 c || c == '.' || c == '-'

/-- The regex letter class `[a-zA-Z]` of `validate_email`. -/
def isAlphaAZ (c : Char) : Bool := isUpperAZ c || isLowerAZ c

/-- `validate_email` from app.py: the regex
local+ at-sign domain+ dot letters(2 or more), anchored at both ends
(with the Python trailing-newline anchor semantics).  Backtracking regex
matching is match existence, rendered here as a bounded search over the
positions of the at-sign and of the last dot required by the pattern. -/
def validate_email (email : Str) : Bool :=
  let s := stripFinalNewline email
  (List.range s.length).any fun i =>
    (List.range s.length).any fun j =>
      decide (i < j) &&
      !(s.take i).isEmpty && (s.take i).all isLocalChar &&
      (s.get? i == some '@') &&
      !((s.drop (i + 1)).take (j - (i + 1))).isEmpty &&
      ((s.drop (i + 1)).take (j - (i + 1))).all isDomainChar &&
      (s.get? j == some '.') &&
      (s.drop (j + 1)).all isAlphaAZ &&
      decide (2 ≤ (s.drop (j + 1)).length)

/-- A row of the users table. -/
structure Account where
  id : Nat
  username : Str
  email : Str
  passwordHash : Str
  createdAt : Nat
  lastLogin : Option Nat
  failedLoginAttempts : Nat
  accountLockedUntil : Option Nat
deriving DecidableEq, Repr

/-- A row of the login_attempts table. -/
structure LoginAttempt where
  username : Str
  ipAddress : Str
  success : Bool
  timestamp : Nat
deriving DecidableEq, Repr

/-- The database: the users table, the append-only login_attempts
table, and the autoincrement counter for user ids. -/
structure Store where
  users : List Account
  attempts : List LoginAttempt
  nextId : Nat
deriving DecidableEq, Repr

/-- The empty database produced by init_db. -/
def initStore : Store := ⟨[], [], 1⟩

/-- SELECT ... FROM users WHERE username = ? ... fetchone(): the first
row with the given username. -/
def findUser (u : Str) : List Account → Option Account
  | [] => none
  | a :: rest => if a.username = u then some a else findUser u rest

/-- UPDATE users SET ... WHERE username = ?: apply `f` to every row
with the given username. -/
def updateUser (f : Account → Account) (u : Str) (l : List Account) :
    List Account :=
  l.map fun a => if a.username = u then f a else a

/-- The lockout duration: 30 minutes (time is measured in minutes). -/
def lockoutDuration : Nat := 30

/-- The row update of the lazy unlock in is_account_locked:
SET account_locked_until = NULL, failed_login_attempts = 0. -/
def clearLock (b : Account) : Account :=
  { b with accountLockedUntil := none, failedLoginAttempts := 0 }

/-- The row update of increment_failed_login:
SET failed_login_attempts = failed_login_attempts + 1. -/
def bumpFailed (b : Account) : Account :=
  { b with failedLoginAttempts := b.failedLoginAttempts + 1 }

/-- The row update of the lock branch of increment_failed_login:
SET account_locked_until = the given timestamp. -/
def setLock (t : Nat) (b : Account) : Account :=
  { b with accountLockedUntil := some t }

/-- The row update of reset_failed_login: SET failed_login_attempts = 0,
account_locked_until = NULL, last_login = CURRENT_TIMESTAMP. -/
def markSuccess (now : Nat) (b : Account) : Account :=
  { b with failedLoginAttempts := 0, accountLockedUntil := none,
           lastLogin := some now }

/-- `log_login_attempt` from app.py: append one row to login_attempts
(timestamp is the insert time). -/
def logLoginAttempt (u ip : Str) (success : Bool) (now : Nat)
    (s : Store) : Store :=
  { s with attempts := s.attempts ++ [⟨u, ip, success, now⟩] }

/-- `is_account_locked` from app.py.  The `raises` flag models the
surrounding try/except: when the store raises on the query, the except
branch logs the error and returns False with the store untouched
(fail-open).  Otherwise: a missing user or a NULL lock is not locked; a
lock timestamp still in the future is locked; an elapsed lock timestamp
is cleared together with the failure counter (lazy unlock) and the
account reported not locked. -/
def isAccountLocked (raises : Bool) (now : Nat) (u : Str) (s : Store) :
    Bool × Store :=
  if raises then (false, s)
  else
    match findUser u s.users with
    | none => (false, s)
    | some a =>
      match a.accountLockedUntil with
      | none => (false, s)
      | some lockTime =>
        if now < lockTime then (true, s)
        else
          let cleared :=
            updateUser clearLock u s.users
          (false, { s with users := cleared })

/-- `increment_failed_login` from app.py: add one to the counter of the
matching row, re-read the row, and if the re-read counter is at least 5
set the lock timestamp to now plus 30 minutes. -/
def incrementFailedLogin (now : Nat) (u : Str) (s : Store) : Store :=
  let users1 := updateUser bumpFailed u s.users
  match findUser u users1 with
  | some a =>
    if 5 ≤ a.failedLoginAttempts then
      { s with users := updateUser (setLock (now + lockoutDuration)) u users1 }
    else { s with users := users1 }
  | none => { s with users := users1 }

/-- `reset_failed_login` from app.py: zero the counter, clear the lock
and stamp last_login (CURRENT_TIMESTAMP is the call time). -/
def resetFailedLogin (now : Nat) (u : Str) (s : Store) : Store :=
  { s with users := updateUser (markSuccess now) u s.users }

/-- The observable outcome kinds of the login view (one per distinct
flash category it emits on the POST paths modelled here). -/
inductive Outcome where
  | missingFields
  | locked
  | success
  | invalidCredentials
deriving DecidableEq, Repr

/-- The `login` view (POST path) from app.py: strip the username, check
presence of both fields, run the lock pre-check, look the user up,
verify the password, and update counters and the attempt log exactly as
the code does.  `verify` is the external hash-verification collaborator
(werkzeug check_password_hash) and `lockCheckRaises` feeds the
try/except of is_account_locked. -/
def login (verify : Str → Str → Bool) (lockCheckRaises : Bool)
    (now : Nat) (username0 password ip : Str) (s : Store) :
    Outcome × Store :=
  let username := pyStrip username0
  if username.isEmpty || password.isEmpty then (.missingFields, s)
  else
    let res := isAccountLocked lockCheckRaises now username s
    if res.1 then
      (.locked, logLoginAttempt username ip false now res.2)
    else
      match findUser username res.2.users with
      | some user =>
        if verify user.passwordHash password then
          (.success,
           logLoginAttempt username ip true now
             (resetFailedLogin now username res.2))
        else
          (.invalidCredentials,
           logLoginAttempt username ip false now
             (incrementFailedLogin now username res.2))
      | none =>
        (.invalidCredentials,
         logLoginAttempt username ip false now
           (incrementFailedLogin now username res.2))

/-- The registration error kinds of the register view (one per distinct
error flash). -/
inductive RegError where
  | missingField
  | invalidUsername (reason : String)
  | invalidEmail
  | invalidPassword (reason : String)
  | passwordMismatch
  | duplicate
deriving DecidableEq, Repr

/-- The `register` view (POST path) from app.py: strip username and
email, then presence, username syntax, email syntax, password strength,
confirmation match and uniqueness, in that order, first failure wins;
on success insert the new row with the autoincrement id.  `hashF` is
the external hashing collaborator (werkzeug generate_password_hash). -/
def register (hashF : Str → Str) (now : Nat)
    (username0 email0 password confirm : Str) (s : Store) :
    Option RegError × Store :=
  let username := pyStrip username0
  let email := pyStrip email0
  if username.isEmpty || email.isEmpty || password.isEmpty then
    (some .missingField, s)
  else if !(validate_username username).1 then
    (some (.invalidUsername (validate_username username).2), s)
  else if !(validate_email email) then
    (some .invalidEmail, s)
  else if !(validate_password password).1 then
    (some (.invalidPassword (validate_password password).2), s)
  else if password ≠ confirm then
    (some .passwordMismatch, s)
  else if s.users.any (fun a => a.username == username || a.email == email) then
    (some .duplicate, s)
  else
    (none,
     { s with
        users := s.users ++
          [⟨s.nextId, username, email, hashF password, now, none, 0, none⟩],
        nextId := s.nextId + 1 })

/-- One external call to the core: a registration or an authentication,
each carrying its wall-clock time. -/
inductive Op where
  | reg (now : Nat) (username email password confirm : Str)
  | auth (now : Nat) (username password ip : Str)

/-- Execute one call against the store (the store raising is not part
of normal operation, so the lock check runs with raises := false). -/
def step (verify : Str → Str → Bool) (hashF : Str → Str) (s : Store) :
    Op → Store
  | .reg now u e p c => (register hashF now u e p c s).2
  | .auth now u p ip => (login verify false now u p ip s).2

/-- Execute a sequence of calls starting from the empty database. -/
def runOps (verify : Str → Str → Bool) (hashF : Str → Str)
    (ops : List Op) : Store :=
  ops.foldl (step verify hashF) initStore

/-! ### Basic lemmas about the list-backed store -/

theorem findUser_eq_none_iff (u : Str) :
    ∀ l : List Account, (findUser u l = none ↔ ∀ a ∈ l, a.username ≠ u)
  | [] => by simp [findUser]
  | a :: rest => by
    by_cases h : a.username = u
    · simp [findUser, h]
    · simp [findUser, h, findUser_eq_none_iff u rest]

theorem updateUser_eq_of_none (f : Account → Account) (u : Str) :
    ∀ l : List Account, (∀ a ∈ l, a.username ≠ u) → updateUser f u l = l
  | [], _ => rfl
  | a :: rest, h => by
    have ha : a.username ≠ u := h a (List.mem_cons_self a rest)
    have hr := updateUser_eq_of_none f u rest
      (fun b hb => h b (List.mem_cons_of_mem a hb))
    simp only [updateUser, List.map] at hr ⊢
    simp [ha, hr]

theorem findUser_updateUser (f : Account → Account)
    (hf : ∀ a, (f a).username = a.username) (u : Str) :
    ∀ l : List Account,
      findUser u (updateUser f u l) = (findUser u l).map f
  | [] => rfl
  | a :: rest => by
    have ih := findUser_updateUser f hf u rest
    simp only [updateUser, List.map] at ih ⊢
    by_cases h : a.username = u
    · simp [findUser, h, hf]
    · simp [findUser, h, ih]

theorem findUser_mem {u : Str} :
    ∀ {l : List Account} {a : Account}, findUser u l = some a →
      a ∈ l ∧ a.username = u
  | [], a => by simp [findUser]
  | b :: rest, a => by
    by_cases h : b.username = u
    · intro hfind
      simp [findUser, h] at hfind
      subst hfind
      exact ⟨List.mem_cons_self b rest, h⟩
    · intro hfind
      simp only [findUser, if_neg h] at hfind
      have := findUser_mem (l := rest) hfind
      exact ⟨List.mem_cons_of_mem b this.1, this.2⟩

theorem clearLock_username (b : Account) :
    (clearLock b).username = b.username := rfl

theorem bumpFailed_username (b : Account) :
    (bumpFailed b).username = b.username := rfl

theorem setLock_username (t : Nat) (b : Account) :
    (setLock t b).username = b.username := rfl

theorem markSuccess_username (now : Nat) (b : Account) :
    (markSuccess now b).username = b.username := rfl

/-! ### Claim C5: password rules are checked in a fixed order and the
first failing rule's reason is returned -/

/-- Rendering of the claim's words: the five ordered password rules,
each a pass flag paired with its violation reason. -/
def passwordRules (p : Str) : List (Bool × String) :=
  [ (decide (8 ≤ p.length),
     "Password must be at least 8 characters long"),
    (p.any isUpperAZ,
     "Password must contain at least one uppercase letter"),
    (p.any isLowerAZ,
     "Password must contain at least one lowercase letter"),
    (p.any isDigit09,
     "Password must contain at least one digit"),
    (p.any (fun c => specialChars.contains c),
     "Password must contain at least one special character") ]

/-- Reason attached to the first failing entry of an ordered check
list; none when every check passes. -/
def firstFailure {α : Type} : List (Bool × α) → Option α
  | [] => none
  | (ok, r) :: rest => if ok then firstFailure rest else some r

/-- Claim C5: for every string s, validate_password evaluates the five
rules in the fixed order length, uppercase, lowercase, digit, special
character, returns the reason of the first failing rule, and returns ok
with the canonical valid message when all five pass.  In particular a
string of length less than 8 always gets the length reason, since the
length rule is first. -/
theorem c5_validate_password_first_failing_rule (p : Str) :
    validate_password p =
      (match firstFailure (passwordRules p) with
       | some reason => (false, reason)
       | none => (true, "Password is valid")) := by
  rcases Nat.lt_or_ge p.length 8 with h1 | h1
  · have h1' : ¬ (8 ≤ p.length) := Nat.not_le.mpr h1
    simp [validate_password, passwordRules, firstFailure, h1, h1']
  · have h1' : ¬ (p.length < 8) := Nat.not_lt.mpr h1
    cases h2 : p.any isUpperAZ
    · simp [validate_password, passwordRules, firstFailure, h1, h1', h2]
    · cases h3 : p.any isLowerAZ
      · simp [validate_password, passwordRules, firstFailure, h1, h1', h2, h3]
      · cases h4 : p.any isDigit09
        · simp [validate_password, passwordRules, firstFailure,
            h1, h1', h2, h3, h4]
        · by_cases h5 : ∃ x ∈ p, x ∈ specialChars
          · have h5' : ¬ ∀ x ∈ p, x ∉ specialChars := by
              push_neg
              exact h5
            simp [validate_password, passwordRules, firstFailure,
              h1, h1', h2, h3, h4, h5, h5']
          · have h5' : ∀ x ∈ p, x ∉ specialChars := by
              push_neg at h5
              exact h5
            simp [validate_password, passwordRules, firstFailure,
              h1, h1', h2, h3, h4, h5, h5']

/-! ### Claim C6: the username character-set rule -/

/-- Claim C6 (refuted at this input): the code accepts the 4-character
string a b c newline as a valid username, although the newline is
outside the class letters, digits, underscore, because the Python
end-of-pattern anchor also matches just before one trailing newline.
The claim requires every 3-to-20-character string containing a
character outside the class to be rejected with the character-set
message. -/
theorem c6_trailing_newline_accepted :
    validate_username ['a', 'b', 'c', '\n'] = (true, "Username is valid") ∧
    isWordChar '\n' = false ∧
    (3 ≤ ([ 'a', 'b', 'c', '\n'] : Str).length ∧
      ([ 'a', 'b', 'c', '\n'] : Str).length ≤ 20) := by
  refine ⟨rfl, rfl, by decide⟩

/-! ### Claim C7: registration checks run in a fixed order and the
first failing check's error is returned -/

/-- Rendering of the claim's words: the ordered list of registration
checks (presence, username syntax, email syntax, password strength,
confirmation match, uniqueness), each a pass flag paired with the error
register reports when it fails. -/
def registerChecks (username0 email0 password confirm : Str)
    (s : Store) : List (Bool × RegError) :=
  let username := pyStrip username0
  let email := pyStrip email0
  [ (!(username.isEmpty || email.isEmpty || password.isEmpty),
     .missingField),
    ((validate_username username).1,
     .invalidUsername (validate_username username).2),
    (validate_email email, .invalidEmail),
    ((validate_password password).1,
     .invalidPassword (validate_password password).2),
    (decide (password = confirm), .passwordMismatch),
    (!(s.users.any fun a => a.username == username || a.email == email),
     .duplicate) ]

/-- Claim C7: for every registration input, register returns the error
of the first failing check in the fixed order presence, username
syntax, email syntax, password strength, confirmation match,
uniqueness (and success exactly when no check fails); so for inputs
violating several rules at once the earliest check's error is the one
returned. -/
theorem c7_register_first_failing_check (hashF : Str → Str) (now : Nat)
    (username email password confirm : Str) (s : Store) :
    (register hashF now username email password confirm s).1 =
      firstFailure (registerChecks username email password confirm s) := by
  simp only [register, registerChecks, firstFailure]
  cases h1 : (pyStrip username).isEmpty || (pyStrip email).isEmpty ||
      password.isEmpty
  · cases h2 : (validate_username (pyStrip username)).1
    · simp [h1, h2]
    · cases h3 : validate_email (pyStrip email)
      · simp [h1, h2, h3]
      · cases h4 : (validate_password password).1
        · simp [h1, h2, h3, h4]
        · by_cases h5 : password = confirm
          · cases h6 : s.users.any
                (fun a => a.username == pyStrip username ||
                  a.email == pyStrip email)
            · simp [h1, h2, h3, h4, h5, h6]
            · simp [h1, h2, h3, h4, h5, h6]
          · simp [h1, h2, h3, h4, h5]
  · simp [h1]

/-! ### Lemmas about the lock check, the failure increment and login -/

theorem isEmpty_false_of_ne {l : Str} (h : l ≠ []) : l.isEmpty = false := by
  cases l
  · exact absurd rfl h
  · rfl

theorem isAccountLocked_of_none (r : Bool) (now : Nat) (u : Str)
    (s : Store) (hfind : findUser u s.users = none) :
    isAccountLocked r now u s = (false, s) := by
  cases r <;> simp [isAccountLocked, hfind]

theorem isAccountLocked_of_noLock (now : Nat) (u : Str) (s : Store)
    (a : Account) (hfind : findUser u s.users = some a)
    (h : a.accountLockedUntil = none) :
    isAccountLocked false now u s = (false, s) := by
  simp [isAccountLocked, hfind, h]

theorem isAccountLocked_of_future (now : Nat) (u : Str) (s : Store)
    (a : Account) (t : Nat) (hfind : findUser u s.users = some a)
    (hlock : a.accountLockedUntil = some t) (hnow : now < t) :
    isAccountLocked false now u s = (true, s) := by
  simp [isAccountLocked, hfind, hlock, hnow]

theorem isAccountLocked_of_expired (now : Nat) (u : Str) (s : Store)
    (a : Account) (t : Nat) (hfind : findUser u s.users = some a)
    (hlock : a.accountLockedUntil = some t) (hnow : ¬ now < t) :
    isAccountLocked false now u s =
      (false, { s with users := updateUser clearLock u s.users }) := by
  simp [isAccountLocked, hfind, hlock, hnow]

theorem incrementFailedLogin_of_none (now : Nat) (u : Str) (s : Store)
    (hfind : findUser u s.users = none) :
    incrementFailedLogin now u s = s := by
  have hnm := (findUser_eq_none_iff u s.users).mp hfind
  have h1 : updateUser bumpFailed u s.users = s.users :=
    updateUser_eq_of_none _ _ _ hnm
  simp [incrementFailedLogin, h1, hfind]

theorem findUser_incrementFailedLogin (now : Nat) (u : Str) (s : Store)
    (a : Account) (hfind : findUser u s.users = some a) :
    findUser u (incrementFailedLogin now u s).users =
      some (if 5 ≤ a.failedLoginAttempts + 1
            then setLock (now + lockoutDuration) (bumpFailed a)
            else bumpFailed a) := by
  have h1 : findUser u (updateUser bumpFailed u s.users) =
      some (bumpFailed a) := by
    rw [findUser_updateUser bumpFailed bumpFailed_username u s.users, hfind,
      Option.map_some']
  have h2 : findUser u (updateUser (setLock (now + lockoutDuration)) u
      (updateUser bumpFailed u s.users)) =
      some (setLock (now + lockoutDuration) (bumpFailed a)) := by
    rw [findUser_updateUser _ (setLock_username _) u _, h1, Option.map_some']
  have hcnt : (bumpFailed a).failedLoginAttempts =
      a.failedLoginAttempts + 1 := rfl
  simp only [incrementFailedLogin]
  rw [h1]
  simp only [hcnt]
  by_cases h5 : 5 ≤ a.failedLoginAttempts + 1
  · simp [h5, h2]
  · simp [h5, h1]

theorem attempts_incrementFailedLogin (now : Nat) (u : Str) (s : Store) :
    (incrementFailedLogin now u s).attempts = s.attempts := by
  simp only [incrementFailedLogin]
  cases hf : findUser u (updateUser bumpFailed u s.users) with
  | none => rfl
  | some a => by_cases h5 : 5 ≤ a.failedLoginAttempts <;> simp [hf, h5]

/-- Shape of a login with a wrong password against an account with no
lock set: outcome InvalidCredentials, counter incremented, and the lock
stamped to now plus 30 minutes exactly when the new counter reaches 5. -/
theorem login_wrong_no_lock (verify : Str → Str → Bool) (now : Nat)
    (u w ip : Str) (s : Store) (a : Account)
    (hu : pyStrip u = u) (hne : u ≠ []) (hw : w ≠ [])
    (hfind : findUser u s.users = some a)
    (hlock : a.accountLockedUntil = none)
    (hv : verify a.passwordHash w = false) :
    (login verify false now u w ip s).1 = Outcome.invalidCredentials ∧
    findUser u (login verify false now u w ip s).2.users =
      some (if 5 ≤ a.failedLoginAttempts + 1
            then setLock (now + lockoutDuration) (bumpFailed a)
            else bumpFailed a) := by
  have hl := isAccountLocked_of_noLock now u s a hfind hlock
  have hi := findUser_incrementFailedLogin now u s a hfind
  simp [login, hu, isEmpty_false_of_ne hne, isEmpty_false_of_ne hw, hl,
    hfind, hv, logLoginAttempt, hi]

/-- Shape of a login while the account lock is still in the future:
outcome Locked, users table unchanged, one failed attempt logged. -/
theorem login_locked (verify : Str → Str → Bool) (now : Nat)
    (u p ip : Str) (s : Store) (a : Account) (t : Nat)
    (hu : pyStrip u = u) (hne : u ≠ []) (hp : p ≠ [])
    (hfind : findUser u s.users = some a)
    (hlock : a.accountLockedUntil = some t) (hnow : now < t) :
    login verify false now u p ip s =
      (Outcome.locked, logLoginAttempt u ip false now s) := by
  have hl : isAccountLocked false now u s = (true, s) := by
    simp [isAccountLocked, hfind, hlock, hnow]
  simp [login, hu, isEmpty_false_of_ne hne, isEmpty_false_of_ne hp, hl]

/-- Shape of a login with an unknown username: InvalidCredentials, one
failed attempt appended, everything else untouched. -/
theorem login_unknown (verify : Str → Str → Bool) (now : Nat)
    (u p ip : Str) (s : Store)
    (hu : pyStrip u = u) (hne : u ≠ []) (hp : p ≠ [])
    (hfind : findUser u s.users = none) :
    login verify false now u p ip s =
      (Outcome.invalidCredentials,
       { s with attempts := s.attempts ++ [⟨u, ip, false, now⟩] }) := by
  have hl := isAccountLocked_of_none false now u s hfind
  have hi := incrementFailedLogin_of_none now u s hfind
  simp [login, hu, isEmpty_false_of_ne hne, isEmpty_false_of_ne hp, hl,
    hfind, hi, logLoginAttempt]

/-! ### Concrete material for witnesses and counterexamples -/

/-- Concrete stand-in for the external hash-verification collaborator
in witnesses: the stored digest equals the password text. -/
def demoVerify : Str → Str → Bool := fun h p => h == p

/-- Concrete stand-in for the external hashing collaborator. -/
def demoHash : Str → Str := fun p => p

/-- A concrete registered account. -/
def aliceAcct : Account :=
  ⟨1, "alice".data, "alice@example.com".data, "Abc12345!".data,
   0, none, 0, none⟩

/-- A concrete store holding only alice. -/
def aliceStore : Store := ⟨[aliceAcct], [], 2⟩

/-- A concrete account whose lock is set (until minute 5, counter 5). -/
def bobAcct : Account :=
  ⟨1, "bob".data, "bob@example.com".data, "Abc12345!".data,
   0, none, 5, some 5⟩

/-- A concrete store holding only the locked account bob. -/
def bobStore : Store := ⟨[bobAcct], [], 2⟩

/-! ### Claim C4: the lazy lock check -/

/-- Claim C4: for an account whose lock timestamp is set, the lock
check returns true and changes nothing while the current time is
earlier than the timestamp; at or past the timestamp it clears the
lock, zeroes the failure counter as its side effect, and returns
false.  The embedding is sequential (no timers), so this check and the
reset on a successful login are the only paths that touch the lock. -/
theorem c4_lazy_unlock (now : Nat) (u : Str) (s : Store) (a : Account)
    (t : Nat) (hfind : findUser u s.users = some a)
    (hlock : a.accountLockedUntil = some t) :
    isAccountLocked false now u s =
      (if now < t then (true, s)
       else (false, { s with users := updateUser clearLock u s.users })) := by
  simp [isAccountLocked, hfind, hlock]

/-- Witness for C4: bob is locked until minute 5.  At minute 3 the
check reports locked and leaves the store alone; at minute 5 it clears
bob's lock and counter and reports open. -/
theorem c4_lazy_unlock_witness :
    findUser "bob".data bobStore.users = some bobAcct ∧
    bobAcct.accountLockedUntil = some 5 ∧
    isAccountLocked false 3 "bob".data bobStore = (true, bobStore) ∧
    isAccountLocked false 5 "bob".data bobStore =
      (false, { bobStore with
                 users := updateUser clearLock "bob".data bobStore.users }) := by
  refine ⟨rfl, rfl, ?_, ?_⟩
  · have h := c4_lazy_unlock 3 "bob".data bobStore bobAcct 5 rfl rfl
    rw [if_pos (by decide)] at h
    exact h
  · have h := c4_lazy_unlock 5 "bob".data bobStore bobAcct 5 rfl rfl
    rw [if_neg (by decide)] at h
    exact h

/-! ### Claim C8: unknown username leaves all accounts untouched -/

/-- Claim C8 (amended: the password must be non-empty, and the username
non-empty once stripped): authenticating an unknown username returns
InvalidCredentials, appends exactly one failed LoginAttempt record, and
leaves the users table and the id counter unchanged; no counter is
incremented and no lock is created anywhere. -/
theorem c8_unknown_username_frame (verify : Str → Str → Bool)
    (now : Nat) (u p ip : Str) (s : Store)
    (hu : pyStrip u = u) (hne : u ≠ []) (hp : p ≠ [])
    (hfind : findUser u s.users = none) :
    login verify false now u p ip s =
      (Outcome.invalidCredentials,
       { s with attempts := s.attempts ++ [⟨u, ip, false, now⟩] }) :=
  login_unknown verify now u p ip s hu hne hp hfind

/-- Claim C8 as frozen is false for the empty password: authenticating
the unknown username ghost with the empty password takes the
fields-required branch, so the outcome is not InvalidCredentials and no
login attempt is appended. -/
theorem c8_counterexample_empty_password :
    findUser "ghost".data aliceStore.users = none ∧
    (login demoVerify false 0 "ghost".data [] "ip".data aliceStore).1 =
      Outcome.missingFields ∧
    Outcome.missingFields ≠ Outcome.invalidCredentials ∧
    (login demoVerify false 0 "ghost".data [] "ip".data
        aliceStore).2.attempts = aliceStore.attempts := by
  refine ⟨rfl, rfl, by decide, rfl⟩

/-- Witness for the amended C8 at concrete inputs. -/
theorem c8_unknown_username_frame_witness :
    pyStrip "ghost".data = "ghost".data ∧ "ghost".data ≠ ([] : Str) ∧
    "pw".data ≠ ([] : Str) ∧
    findUser "ghost".data aliceStore.users = none ∧
    login demoVerify false 7 "ghost".data "pw".data "ip".data aliceStore =
      (Outcome.invalidCredentials,
       { aliceStore with attempts := aliceStore.attempts ++
           [⟨"ghost".data, "ip".data, false, 7⟩] }) := by
  refine ⟨rfl, by decide, by decide, rfl, ?_⟩
  exact c8_unknown_username_frame demoVerify 7 "ghost".data "pw".data
    "ip".data aliceStore rfl (by decide) (by decide) rfl

/-! ### Claim C3: no username enumeration by outcome kind -/

/-- Claim C3 (amended: both usernames non-empty after stripping and
both passwords non-empty): for every non-locked state, an unknown
username with any password and an existing, non-locked account with a
wrong password produce the same outcome kind, InvalidCredentials, so
the two cases are indistinguishable by outcome kind. -/
theorem c3_no_enumeration (verify : Str → Str → Bool) (now : Nat)
    (g uu w p ip : Str) (s : Store) (a : Account)
    (hg : pyStrip g = g) (hgne : g ≠ [])
    (hgfind : findUser g s.users = none) (hp : p ≠ [])
    (hu : pyStrip uu = uu) (hune : uu ≠ [])
    (hufind : findUser uu s.users = some a)
    (hnl : (isAccountLocked false now uu s).1 = false)
    (hw : w ≠ []) (hvw : verify a.passwordHash w = false) :
    (login verify false now g p ip s).1 = Outcome.invalidCredentials ∧
    (login verify false now uu w ip s).1 = Outcome.invalidCredentials := by
  constructor
  · rw [login_unknown verify now g p ip s hg hgne hp hgfind]
  · cases hcase : a.accountLockedUntil with
    | none =>
      exact (login_wrong_no_lock verify now uu w ip s a hu hune hw hufind
        hcase hvw).1
    | some t =>
      by_cases hnow : now < t
      · exfalso
        have : isAccountLocked false now uu s = (true, s) := by
          simp [isAccountLocked, hufind, hcase, hnow]
        rw [this] at hnl
        simp at hnl
      · have hl : isAccountLocked false now uu s =
            (false, { s with users := updateUser clearLock uu s.users }) := by
          simp [isAccountLocked, hufind, hcase, hnow]
        have hfind2 : findUser uu (updateUser clearLock uu s.users) =
            some (clearLock a) := by
          rw [findUser_updateUser clearLock clearLock_username uu s.users,
            hufind, Option.map_some']
        have hv2 : verify (clearLock a).passwordHash w = false := hvw
        simp [login, hu, isEmpty_false_of_ne hune, isEmpty_false_of_ne hw,
          hl, hfind2, hv2]

/-- Claim C3 as frozen is false when the username or the password is
empty: an empty submitted username has no account yet yields the
fields-required outcome while the existing account alice with a wrong
password yields InvalidCredentials, and the unknown username ghost with
the empty password also yields the fields-required outcome. -/
theorem c3_counterexample_empty_inputs :
    findUser ([] : Str) aliceStore.users = none ∧
    (login demoVerify false 0 [] "Wrongpw1!".data "ip".data aliceStore).1 =
      Outcome.missingFields ∧
    (login demoVerify false 0 "alice".data "Wrongpw1!".data "ip".data
        aliceStore).1 = Outcome.invalidCredentials ∧
    Outcome.missingFields ≠ Outcome.invalidCredentials ∧
    findUser "ghost".data aliceStore.users = none ∧
    (login demoVerify false 0 "ghost".data [] "ip".data aliceStore).1 =
      Outcome.missingFields := by
  refine ⟨rfl, rfl, by decide, by decide, rfl, rfl⟩

/-- Witness for the amended C3 at concrete inputs. -/
theorem c3_no_enumeration_witness :
    (login demoVerify false 3 "ghost".data "Anypw".data "ip".data
        aliceStore).1 = Outcome.invalidCredentials ∧
    (login demoVerify false 3 "alice".data "Wrongpw1!".data "ip".data
        aliceStore).1 = Outcome.invalidCredentials := by
  exact c3_no_enumeration demoVerify 3 "ghost".data "alice".data
    "Wrongpw1!".data "Anypw".data "ip".data aliceStore aliceAcct
    rfl (by decide) rfl (by decide) rfl (by decide) rfl (by decide)
    (by decide) (by decide)

/-! ### Claim C2: a successful login always resets the lock state -/

theorem findUser_resetFailedLogin (now : Nat) (u : Str) (s : Store)
    (a : Account) (hfind : findUser u s.users = some a) :
    findUser u (resetFailedLogin now u s).users =
      some (markSuccess now a) := by
  simp only [resetFailedLogin]
  rw [findUser_updateUser _ (markSuccess_username now) u s.users, hfind,
    Option.map_some']

theorem users_logLoginAttempt (u ip : Str) (b : Bool) (n : Nat)
    (st : Store) : (logLoginAttempt u ip b n st).users = st.users := rfl

/-- Claim C2: whenever authentication returns Success for an account,
the post-state record of that account has failed_login_attempts 0, no
account_locked_until, and last_login stamped with the call time — also
when the account was never locked and the counter was already 0. -/
theorem c2_success_resets (verify : Str → Str → Bool) (now : Nat)
    (u p ip : Str) (s s' : Store) (a : Account)
    (hu : pyStrip u = u)
    (hfind : findUser u s.users = some a)
    (hrun : login verify false now u p ip s = (Outcome.success, s')) :
    findUser u s'.users = some (markSuccess now a) := by
  cases hEu : u.isEmpty with
  | true => simp [login, hu, hEu] at hrun
  | false =>
  cases hEp : p.isEmpty with
  | true => simp [login, hu, hEu, hEp] at hrun
  | false =>
  cases hcase : a.accountLockedUntil with
  | none =>
    have hl := isAccountLocked_of_noLock now u s a hfind hcase
    cases hv : verify a.passwordHash p with
    | false => simp [login, hu, hEu, hEp, hl, hfind, hv] at hrun
    | true =>
      have hrun' :
          logLoginAttempt u ip true now (resetFailedLogin now u s) = s' := by
        simp [login, hu, hEu, hEp, hl, hfind, hv] at hrun
        exact hrun
      rw [← hrun', users_logLoginAttempt]
      exact findUser_resetFailedLogin now u s a hfind
  | some t =>
    by_cases hnow : now < t
    · have hl : isAccountLocked false now u s = (true, s) := by
        simp [isAccountLocked, hfind, hcase, hnow]
      simp [login, hu, hEu, hEp, hl] at hrun
    · have hl : isAccountLocked false now u s =
          (false, { s with users := updateUser clearLock u s.users }) := by
        simp [isAccountLocked, hfind, hcase, hnow]
      have hfind2 : findUser u (updateUser clearLock u s.users) =
          some (clearLock a) := by
        rw [findUser_updateUser clearLock clearLock_username u s.users,
          hfind, Option.map_some']
      cases hv : verify (clearLock a).passwordHash p with
      | false => simp [login, hu, hEu, hEp, hl, hfind2, hv] at hrun
      | true =>
        have hrun' : logLoginAttempt u ip true now
            (resetFailedLogin now u
              { s with users := updateUser clearLock u s.users }) = s' := by
          simp [login, hu, hEu, hEp, hl, hfind2, hv] at hrun
          exact hrun
        rw [← hrun', users_logLoginAttempt]
        exact findUser_resetFailedLogin now u _ (clearLock a) hfind2

/-- Witness for C2: alice (never locked, counter already 0) logs in
with the correct password; her stored record afterwards has counter 0,
no lock, and last_login stamped 9. -/
theorem c2_success_resets_witness :
    (login demoVerify false 9 "alice".data "Abc12345!".data "ip".data
        aliceStore).1 = Outcome.success ∧
    findUser "alice".data
        (login demoVerify false 9 "alice".data "Abc12345!".data "ip".data
          aliceStore).2.users = some (markSuccess 9 aliceAcct) := by
  refine ⟨rfl, ?_⟩
  exact c2_success_resets demoVerify 9 "alice".data "Abc12345!".data
    "ip".data aliceStore
    (login demoVerify false 9 "alice".data "Abc12345!".data "ip".data
      aliceStore).2 aliceAcct rfl rfl rfl

/-! ### Claim C9: the lock check fails open when the store raises -/

/-- Claim C9: when the store raises during the lock check, the check
swallows the error and reports not locked with the store untouched
(fail-open); hence an account whose lock timestamp is still in the
future is treated as unlocked, and a login with the correct password
during the lock window returns Success, where the same login without
the error returns Locked. -/
theorem c9_lock_check_fail_open (verify : Str → Str → Bool) (now : Nat)
    (u p ip : Str) (s : Store) (a : Account) (t : Nat)
    (hu : pyStrip u = u) (hne : u ≠ []) (hp : p ≠ [])
    (hfind : findUser u s.users = some a)
    (hlock : a.accountLockedUntil = some t) (hnow : now < t)
    (hv : verify a.passwordHash p = true) :
    isAccountLocked true now u s = (false, s) ∧
    (login verify true now u p ip s).1 = Outcome.success ∧
    (login verify false now u p ip s).1 = Outcome.locked := by
  refine ⟨rfl, ?_, ?_⟩
  · simp [login, hu, isEmpty_false_of_ne hne, isEmpty_false_of_ne hp,
      isAccountLocked, hfind, hv]
  · rw [login_locked verify now u p ip s a t hu hne hp hfind hlock hnow]

/-- Witness for C9: bob is locked until minute 5; at minute 3 with the
correct password, the raising run succeeds and the normal run is
Locked. -/
theorem c9_lock_check_fail_open_witness :
    (login demoVerify true 3 "bob".data "Abc12345!".data "ip".data
        bobStore).1 = Outcome.success ∧
    (login demoVerify false 3 "bob".data "Abc12345!".data "ip".data
        bobStore).1 = Outcome.locked := by
  have h := c9_lock_check_fail_open demoVerify 3 "bob".data
    "Abc12345!".data "ip".data bobStore bobAcct 5 rfl (by decide)
    (by decide) rfl rfl (by decide) (by decide)
  exact ⟨h.2.1, h.2.2⟩

/-! ### Claim C1: five failures lock the sixth attempt out -/

theorem bumpFailed_failed (b : Account) :
    (bumpFailed b).failedLoginAttempts = b.failedLoginAttempts + 1 := rfl

theorem bumpFailed_lock (b : Account) :
    (bumpFailed b).accountLockedUntil = b.accountLockedUntil := rfl

theorem bumpFailed_hash (b : Account) :
    (bumpFailed b).passwordHash = b.passwordHash := rfl

theorem setLock_lock (t : Nat) (b : Account) :
    (setLock t b).accountLockedUntil = some t := rfl

theorem setLock_hash (t : Nat) (b : Account) :
    (setLock t b).passwordHash = b.passwordHash := rfl

/-- Claim C1: for an account starting at failed_login_attempts 0 with
no lock, after exactly 5 consecutive failed logins the 6th
authentication within the 30-minute lock window returns Locked and not
Success, even though the submitted password is correct. -/
theorem c1_sixth_attempt_locked (verify : Str → Str → Bool)
    (t1 t2 t3 t4 t5 t6 : Nat) (u p w1 w2 w3 w4 w5 ip : Str)
    (s0 s1 s2 s3 s4 s5 : Store) (a : Account)
    (hu : pyStrip u = u) (hne : u ≠ [])
    (hfind : findUser u s0.users = some a)
    (hcnt : a.failedLoginAttempts = 0)
    (hlock : a.accountLockedUntil = none)
    (hw1 : w1 ≠ []) (hv1 : verify a.passwordHash w1 = false)
    (hw2 : w2 ≠ []) (hv2 : verify a.passwordHash w2 = false)
    (hw3 : w3 ≠ []) (hv3 : verify a.passwordHash w3 = false)
    (hw4 : w4 ≠ []) (hv4 : verify a.passwordHash w4 = false)
    (hw5 : w5 ≠ []) (hv5 : verify a.passwordHash w5 = false)
    (hp : p ≠ []) (hvp : verify a.passwordHash p = true)
    (hwin : t6 < t5 + lockoutDuration)
    (h1 : s1 = (login verify false t1 u w1 ip s0).2)
    (h2 : s2 = (login verify false t2 u w2 ip s1).2)
    (h3 : s3 = (login verify false t3 u w3 ip s2).2)
    (h4 : s4 = (login verify false t4 u w4 ip s3).2)
    (h5 : s5 = (login verify false t5 u w5 ip s4).2) :
    (login verify false t6 u p ip s5).1 = Outcome.locked ∧
    (login verify false t6 u p ip s5).1 ≠ Outcome.success := by
  -- attempt 1: counter 0 → 1
  have st1 := (login_wrong_no_lock verify t1 u w1 ip s0 a hu hne hw1
    hfind hlock hv1).2
  rw [← h1, hcnt] at st1
  rw [if_neg (by decide)] at st1
  set b1 := bumpFailed a with hb1
  have hcnt1 : b1.failedLoginAttempts = 1 := by
    rw [hb1, bumpFailed_failed, hcnt]
  have hlock1 : b1.accountLockedUntil = none := by
    rw [hb1, bumpFailed_lock, hlock]
  have hash1 : b1.passwordHash = a.passwordHash := rfl
  -- attempt 2: counter 1 → 2
  have st2 := (login_wrong_no_lock verify t2 u w2 ip s1 b1 hu hne hw2
    st1 hlock1 (by rw [hash1]; exact hv2)).2
  rw [← h2, hcnt1] at st2
  rw [if_neg (by decide)] at st2
  set b2 := bumpFailed b1 with hb2
  have hcnt2 : b2.failedLoginAttempts = 2 := by
    rw [hb2, bumpFailed_failed, hcnt1]
  have hlock2 : b2.accountLockedUntil = none := by
    rw [hb2, bumpFailed_lock, hlock1]
  have hash2 : b2.passwordHash = a.passwordHash := rfl
  -- attempt 3: counter 2 → 3
  have st3 := (login_wrong_no_lock verify t3 u w3 ip s2 b2 hu hne hw3
    st2 hlock2 (by rw [hash2]; exact hv3)).2
  rw [← h3, hcnt2] at st3
  rw [if_neg (by decide)] at st3
  set b3 := bumpFailed b2 with hb3
  have hcnt3 : b3.failedLoginAttempts = 3 := by
    rw [hb3, bumpFailed_failed, hcnt2]
  have hlock3 : b3.accountLockedUntil = none := by
    rw [hb3, bumpFailed_lock, hlock2]
  have hash3 : b3.passwordHash = a.passwordHash := rfl
  -- attempt 4: counter 3 → 4
  have st4 := (login_wrong_no_lock verify t4 u w4 ip s3 b3 hu hne hw4
    st3 hlock3 (by rw [hash3]; exact hv4)).2
  rw [← h4, hcnt3] at st4
  rw [if_neg (by decide)] at st4
  set b4 := bumpFailed b3 with hb4
  have hcnt4 : b4.failedLoginAttempts = 4 := by
    rw [hb4, bumpFailed_failed, hcnt3]
  have hlock4 : b4.accountLockedUntil = none := by
    rw [hb4, bumpFailed_lock, hlock3]
  have hash4 : b4.passwordHash = a.passwordHash := rfl
  -- attempt 5: counter 4 → 5, lock set to t5 + 30
  have st5 := (login_wrong_no_lock verify t5 u w5 ip s4 b4 hu hne hw5
    st4 hlock4 (by rw [hash4]; exact hv5)).2
  rw [← h5, hcnt4] at st5
  rw [if_pos (by decide)] at st5
  set b5 := setLock (t5 + lockoutDuration) (bumpFailed b4) with hb5
  have hlock5 : b5.accountLockedUntil = some (t5 + lockoutDuration) := by
    rw [hb5, setLock_lock]
  -- attempt 6 within the window: Locked
  have hfin := login_locked verify t6 u p ip s5 b5 (t5 + lockoutDuration)
    hu hne hp st5 hlock5 hwin
  rw [hfin]
  exact ⟨rfl, by simp⟩

/-- Intermediate stores of the C1 witness scenario: five wrong-password
logins against alice at minute 0. -/
def c1S1 : Store :=
  (login demoVerify false 0 "alice".data "badpw".data "ip".data
    aliceStore).2

/-- Second store of the C1 witness scenario. -/
def c1S2 : Store :=
  (login demoVerify false 0 "alice".data "badpw".data "ip".data c1S1).2

/-- Third store of the C1 witness scenario. -/
def c1S3 : Store :=
  (login demoVerify false 0 "alice".data "badpw".data "ip".data c1S2).2

/-- Fourth store of the C1 witness scenario. -/
def c1S4 : Store :=
  (login demoVerify false 0 "alice".data "badpw".data "ip".data c1S3).2

/-- Fifth store of the C1 witness scenario: alice now has counter 5 and
a lock until minute 30. -/
def c1S5 : Store :=
  (login demoVerify false 0 "alice".data "badpw".data "ip".data c1S4).2

/-- Witness for C1: after five wrong-password logins at minute 0, the
sixth attempt at minute 10 with alice's correct password is Locked. -/
theorem c1_sixth_attempt_locked_witness :
    (login demoVerify false 10 "alice".data "Abc12345!".data "ip".data
        c1S5).1 = Outcome.locked ∧
    (login demoVerify false 10 "alice".data "Abc12345!".data "ip".data
        c1S5).1 ≠ Outcome.success :=
  c1_sixth_attempt_locked demoVerify 0 0 0 0 0 10 "alice".data
    "Abc12345!".data "badpw".data "badpw".data "badpw".data "badpw".data
    "badpw".data "ip".data aliceStore c1S1 c1S2 c1S3 c1S4 c1S5 aliceAcct
    rfl (by decide) rfl rfl rfl (by decide) (by decide) (by decide)
    (by decide) (by decide) (by decide) (by decide) (by decide)
    (by decide) (by decide) (by decide) (by decide) (by decide)
    rfl rfl rfl rfl rfl

/-! ### Claim C10: the failure counter never exceeds 5 in reachable
states -/

theorem clearLock_failed (b : Account) :
    (clearLock b).failedLoginAttempts = 0 := rfl

theorem markSuccess_failed (now : Nat) (b : Account) :
    (markSuccess now b).failedLoginAttempts = 0 := rfl

theorem setLock_failed (t : Nat) (b : Account) :
    (setLock t b).failedLoginAttempts = b.failedLoginAttempts := rfl

/-- The inductive invariant of one account row: the counter stays at
most 4 while no lock forces it, and the only way to reach 5 is together
with a set lock. -/
def AccInv (a : Account) : Prop :=
  a.failedLoginAttempts ≤ 4 ∨
    (a.failedLoginAttempts = 5 ∧ a.accountLockedUntil ≠ none)

/-- The inductive invariant of the store: every row satisfies AccInv
and usernames are unique (the registration uniqueness check plus the
UNIQUE column constraint). -/
def StoreInv (s : Store) : Prop :=
  (∀ a ∈ s.users, AccInv a) ∧ (s.users.map Account.username).Nodup

theorem map_username_updateUser (f : Account → Account)
    (hf : ∀ a, (f a).username = a.username) (u : Str) :
    ∀ l : List Account,
      (updateUser f u l).map Account.username = l.map Account.username
  | [] => rfl
  | a :: rest => by
    have ih := map_username_updateUser f hf u rest
    simp only [updateUser, List.map] at ih ⊢
    by_cases h : a.username = u <;> simp [h, hf, ih]

theorem mem_updateUser {f : Account → Account} {u : Str}
    {l : List Account} {b : Account} (hb : b ∈ updateUser f u l) :
    ∃ x ∈ l, b = if x.username = u then f x else x := by
  simp only [updateUser] at hb
  rcases List.mem_map.mp hb with ⟨x, hx, hxe⟩
  exact ⟨x, hx, hxe.symm⟩

theorem eq_findUser_of_mem {u : Str} :
    ∀ (l : List Account), (l.map Account.username).Nodup →
      ∀ (acct : Account), findUser u l = some acct →
      ∀ (b : Account), b ∈ l → b.username = u → b = acct
  | [], _, acct, h => by simp [findUser] at h
  | a :: rest, hnd, acct, hfind => by
    intro b hb hbu
    simp only [List.map, List.nodup_cons] at hnd
    obtain ⟨hna, hndr⟩ := hnd
    by_cases h : a.username = u
    · simp only [findUser, if_pos h, Option.some.injEq] at hfind
      rcases List.mem_cons.mp hb with rfl | hbr
      · exact hfind
      · exfalso
        apply hna
        have : b.username ∈ rest.map Account.username :=
          List.mem_map_of_mem Account.username hbr
        rw [hbu, ← h] at this
        exact this
    · simp only [findUser, if_neg h] at hfind
      rcases List.mem_cons.mp hb with rfl | hbr
      · exact absurd hbu h
      · exact eq_findUser_of_mem rest hndr acct hfind b hbr hbu

theorem accInv_updateUser {f : Account → Account} {u : Str}
    {l : List Account} (hl : ∀ x ∈ l, AccInv x)
    (hf : ∀ x ∈ l, x.username = u → AccInv (f x)) :
    ∀ b ∈ updateUser f u l, AccInv b := by
  intro b hb
  rcases mem_updateUser hb with ⟨x, hx, hbe⟩
  by_cases h : x.username = u
  · rw [hbe, if_pos h]
    exact hf x hx h
  · rw [hbe, if_neg h]
    exact hl x hx

theorem storeInv_logLoginAttempt {st : Store} (h : StoreInv st)
    (uu ip2 : Str) (b : Bool) (n : Nat) :
    StoreInv (logLoginAttempt uu ip2 b n st) := h

theorem storeInv_isAccountLocked {s : Store} (hInv : StoreInv s)
    (now : Nat) (u : Str) :
    StoreInv (isAccountLocked false now u s).2 := by
  cases hf : findUser u s.users with
  | none =>
    rw [isAccountLocked_of_none false now u s hf]
    exact hInv
  | some a =>
    cases hl : a.accountLockedUntil with
    | none =>
      rw [isAccountLocked_of_noLock now u s a hf hl]
      exact hInv
    | some t =>
      by_cases hnow : now < t
      · rw [isAccountLocked_of_future now u s a t hf hl hnow]
        exact hInv
      · rw [isAccountLocked_of_expired now u s a t hf hl hnow]
        refine ⟨?_, ?_⟩
        · exact accInv_updateUser hInv.1
            (fun x _ _ => Or.inl (by rw [clearLock_failed]; omega))
        · show ((updateUser clearLock u s.users).map Account.username).Nodup
          rw [map_username_updateUser clearLock clearLock_username u s.users]
          exact hInv.2

/-- When the lock pre-check reports open, the matching account in the
resulting store (if any) carries no lock: either the user was absent,
or the lock was absent, or it had expired and was just cleared. -/
theorem lockCheck_false_shape (s : Store) (now : Nat) (u : Str)
    (hres : (isAccountLocked false now u s).1 = false) :
    findUser u (isAccountLocked false now u s).2.users = none ∨
    ∃ acct, findUser u (isAccountLocked false now u s).2.users = some acct ∧
      acct.accountLockedUntil = none := by
  cases hf : findUser u s.users with
  | none =>
    rw [isAccountLocked_of_none false now u s hf]
    exact Or.inl hf
  | some a =>
    cases hl : a.accountLockedUntil with
    | none =>
      rw [isAccountLocked_of_noLock now u s a hf hl]
      exact Or.inr ⟨a, hf, hl⟩
    | some t =>
      by_cases hnow : now < t
      · rw [isAccountLocked_of_future now u s a t hf hl hnow] at hres
        simp at hres
      · rw [isAccountLocked_of_expired now u s a t hf hl hnow]
        refine Or.inr ⟨clearLock a, ?_, rfl⟩
        show findUser u (updateUser clearLock u s.users) = some (clearLock a)
        rw [findUser_updateUser clearLock clearLock_username u s.users, hf,
          Option.map_some']

theorem storeInv_resetFailedLogin {s : Store} (hInv : StoreInv s)
    (now : Nat) (u : Str) : StoreInv (resetFailedLogin now u s) := by
  refine ⟨?_, ?_⟩
  · exact accInv_updateUser hInv.1
      (fun x _ _ => Or.inl (by rw [markSuccess_failed]; omega))
  · show ((updateUser (markSuccess now) u s.users).map Account.username).Nodup
    rw [map_username_updateUser (markSuccess now) (markSuccess_username now)]
    exact hInv.2

theorem storeInv_incrementFailedLogin {s : Store} (hInv : StoreInv s)
    (now : Nat) (u : Str)
    (hOpen : findUser u s.users = none ∨
      ∃ acct, findUser u s.users = some acct ∧
        acct.accountLockedUntil = none) :
    StoreInv (incrementFailedLogin now u s) := by
  rcases hOpen with hnone | ⟨acct, hfind, hlockn⟩
  · rw [incrementFailedLogin_of_none now u s hnone]
    exact hInv
  · have hmem := findUser_mem hfind
    have hle : acct.failedLoginAttempts ≤ 4 := by
      rcases hInv.1 acct hmem.1 with h | ⟨_, hln⟩
      · exact h
      · exact absurd hlockn hln
    have h1 : findUser u (updateUser bumpFailed u s.users) =
        some (bumpFailed acct) := by
      rw [findUser_updateUser bumpFailed bumpFailed_username u s.users,
        hfind, Option.map_some']
    have hnd1 : ((updateUser bumpFailed u s.users).map Account.username).Nodup := by
      rw [map_username_updateUser bumpFailed bumpFailed_username]
      exact hInv.2
    simp only [incrementFailedLogin]
    rw [h1]
    show StoreInv (if 5 ≤ (bumpFailed acct).failedLoginAttempts then { s with users := updateUser (setLock (now + lockoutDuration)) u (updateUser bumpFailed u s.users) } else { s with users := updateUser bumpFailed u s.users })
    by_cases h5 : 5 ≤ (bumpFailed acct).failedLoginAttempts
    · have hc5 : (bumpFailed acct).failedLoginAttempts = 5 := by
        rw [bumpFailed_failed] at h5 ⊢
        omega
      rw [if_pos h5]
      refine ⟨?_, ?_⟩
      · intro b hb
        rcases mem_updateUser hb with ⟨x, hx1, hbe⟩
        by_cases hxu : x.username = u
        · have hxacct : x = bumpFailed acct :=
            eq_findUser_of_mem _ hnd1 _ h1 x hx1 hxu
          rw [hbe, if_pos hxu, hxacct]
          refine Or.inr ⟨by rw [setLock_failed]; exact hc5, ?_⟩
          rw [setLock_lock]
          simp
        · rw [hbe, if_neg hxu]
          rcases mem_updateUser hx1 with ⟨y, hy, hxe⟩
          by_cases hyu : y.username = u
          · exfalso
            rw [hxe, if_pos hyu] at hxu
            rw [bumpFailed_username] at hxu
            exact hxu hyu
          · rw [hxe, if_neg hyu]
            exact hInv.1 y hy
      · rw [map_username_updateUser (setLock _) (setLock_username _),
          map_username_updateUser bumpFailed bumpFailed_username]
        exact hInv.2
    · rw [if_neg h5]
      refine ⟨?_, ?_⟩
      · intro b hb
        rcases mem_updateUser hb with ⟨y, hy, hbe⟩
        by_cases hyu : y.username = u
        · have : y = acct := eq_findUser_of_mem _ hInv.2 _ hfind y hy hyu
          rw [hbe, if_pos hyu, this]
          rw [bumpFailed_failed] at h5
          exact Or.inl (by rw [bumpFailed_failed]; omega)
        · rw [hbe, if_neg hyu]
          exact hInv.1 y hy
      · rw [map_username_updateUser bumpFailed bumpFailed_username]
        exact hInv.2

theorem storeInv_login (verify : Str → Str → Bool) (now : Nat)
    (u p ip : Str) {s : Store} (hInv : StoreInv s) :
    StoreInv (login verify false now u p ip s).2 := by
  by_cases hE : ((pyStrip u).isEmpty || p.isEmpty) = true
  · simpa [login, hE] using hInv
  · have hInv1 := storeInv_isAccountLocked hInv now (pyStrip u)
    cases hres : (isAccountLocked false now (pyStrip u) s).1 with
    | true =>
      simp only [login, hE, Bool.false_eq_true, if_false, hres, ite_false,
        ite_true]
      exact storeInv_logLoginAttempt hInv1 _ _ _ _
    | false =>
      have hOpen := lockCheck_false_shape s now (pyStrip u) hres
      cases hf2 : findUser (pyStrip u)
          (isAccountLocked false now (pyStrip u) s).2.users with
      | none =>
        simp only [login, hE, Bool.false_eq_true, if_false, hres,
          ite_false, hf2]
        exact storeInv_logLoginAttempt
          (storeInv_incrementFailedLogin hInv1 now (pyStrip u) hOpen) _ _ _ _
      | some user =>
        cases hv : verify user.passwordHash p with
        | true =>
          simp only [login, hE, Bool.false_eq_true, if_false, hres,
            ite_false, hf2, hv, ite_true]
          exact storeInv_logLoginAttempt
            (storeInv_resetFailedLogin hInv1 now (pyStrip u)) _ _ _ _
        | false =>
          simp only [login, hE, Bool.false_eq_true, if_false, hres,
            ite_false, hf2, hv]
          exact storeInv_logLoginAttempt
            (storeInv_incrementFailedLogin hInv1 now (pyStrip u) hOpen) _ _ _ _

theorem nodup_username_append {l : List Account}
    (hnd : (l.map Account.username).Nodup) (x : Account)
    (hx : ∀ y ∈ l, y.username ≠ x.username) :
    ((l ++ [x]).map Account.username).Nodup := by
  rw [List.map_append, List.map_cons, List.map_nil, List.nodup_append]
  refine ⟨hnd, List.nodup_singleton _, ?_⟩
  intro z hz hz2
  rcases List.mem_map.mp hz with ⟨y, hy, hye⟩
  rw [List.mem_singleton] at hz2
  exact hx y hy (by rw [hye, hz2])

theorem storeInv_register (hashF : Str → Str) (now : Nat)
    (u e pw c : Str) {s : Store} (hInv : StoreInv s) :
    StoreInv (register hashF now u e pw c s).2 := by
  cases h1 : (pyStrip u).isEmpty || (pyStrip e).isEmpty || pw.isEmpty with
  | true =>
    have hr : (register hashF now u e pw c s).2 = s := by
      simp [register, h1]
    rw [hr]
    exact hInv
  | false =>
  cases h2 : (validate_username (pyStrip u)).1 with
  | false =>
    have hr : (register hashF now u e pw c s).2 = s := by
      simp [register, h1, h2]
    rw [hr]
    exact hInv
  | true =>
  cases h3 : validate_email (pyStrip e) with
  | false =>
    have hr : (register hashF now u e pw c s).2 = s := by
      simp [register, h1, h2, h3]
    rw [hr]
    exact hInv
  | true =>
  cases h4 : (validate_password pw).1 with
  | false =>
    have hr : (register hashF now u e pw c s).2 = s := by
      simp [register, h1, h2, h3, h4]
    rw [hr]
    exact hInv
  | true =>
  by_cases h5 : pw = c
  · have h5n : ¬ (pw ≠ c) := not_not_intro h5
    cases h6 : s.users.any
        (fun a => a.username == pyStrip u || a.email == pyStrip e) with
    | true =>
      have hr : (register hashF now u e pw c s).2 = s := by
        simp [register, h1, h2, h3, h4, h5n, h6]
      rw [hr]
      exact hInv
    | false =>
      have hreg : (register hashF now u e pw c s).2 =
          { s with users := s.users ++ [⟨s.nextId, pyStrip u, pyStrip e, hashF pw, now, none, 0, none⟩], nextId := s.nextId + 1 } := by
        simp [register, h1, h2, h3, h4, h5n, h6]
      have hnotin : ∀ x ∈ s.users, x.username ≠ pyStrip u := by
        intro x hx
        have hfa := List.any_eq_false.mp h6 x hx
        simp only [Bool.or_eq_true, beq_iff_eq, not_or] at hfa
        exact hfa.1
      rw [hreg]
      refine ⟨?_, ?_⟩
      · intro b hb
        simp only [List.mem_append, List.mem_singleton] at hb
        rcases hb with hb1 | hb2
        · exact hInv.1 b hb1
        · subst hb2
          left
          show (0 : Nat) ≤ 4
          omega
      · exact nodup_username_append hInv.2 _ (fun y hy => hnotin y hy)
  · have hr : (register hashF now u e pw c s).2 = s := by
      simp [register, h1, h2, h3, h4, h5]
    rw [hr]
    exact hInv

theorem storeInv_initStore : StoreInv initStore := by
  refine ⟨?_, ?_⟩
  · intro a ha
    simp [initStore] at ha
  · simp [initStore]

theorem storeInv_runOps (verify : Str → Str → Bool) (hashF : Str → Str) :
    ∀ (ops : List Op) (s : Store), StoreInv s →
      StoreInv (ops.foldl (step verify hashF) s)
  | [], _, h => h
  | op :: rest, s, h => by
    have hstep : StoreInv (step verify hashF s op) := by
      cases op with
      | reg now u e pw c => exact storeInv_register hashF now u e pw c h
      | auth now u pw ip => exact storeInv_login verify now u pw ip h
    exact storeInv_runOps verify hashF rest _ hstep

/-- Claim C10: in every store reachable from the initial state by any
sequence of register and authenticate calls, every account's
failed_login_attempts is at most 5: the lock set on the 5th failure
makes the pre-check block further increments within the window, and
every clearing of the lock resets the counter to 0. -/
theorem c10_failed_attempts_bounded (verify : Str → Str → Bool)
    (hashF : Str → Str) (ops : List Op) :
    ∀ a ∈ (runOps verify hashF ops).users, a.failedLoginAttempts ≤ 5 := by
  intro a ha
  have hInv := storeInv_runOps verify hashF ops initStore storeInv_initStore
  rcases hInv.1 a ha with h | ⟨h5, _⟩
  · omega
  · omega

/-- Account reached in the C10 witness scenario: alice right after one
registration and one failed login. -/
def c10Acct : Account :=
  ⟨1, "alice".data, "alice@example.com".data, "Abc12345!".data, 0, none,
   1, none⟩

/-- Operation list of the C10 witness scenario. -/
def c10Ops : List Op :=
  [Op.reg 0 "alice".data "alice@example.com".data "Abc12345!".data
     "Abc12345!".data,
   Op.auth 1 "alice".data "badpw".data "ip".data]

/-- Witness for C10: after registering alice and one failed login, her
record is in the reachable store and its counter is at most 5. -/
theorem c10_failed_attempts_bounded_witness :
    c10Acct ∈ (runOps demoVerify demoHash c10Ops).users ∧
    c10Acct.failedLoginAttempts ≤ 5 := by
  have hmem : c10Acct ∈ (runOps demoVerify demoHash c10Ops).users := by
    decide
  exact ⟨hmem,
    c10_failed_attempts_bounded demoVerify demoHash c10Ops c10Acct hmem⟩

end FnApp
